import Mathlib

/-!
Verification of the stream-download orchestrator (`auto_dl.py`).

Strings are modeled as `List Char`; machine side effects (HTTP requests,
file writes, subprocess invocations) are modeled as an explicit effect
trace; fallible operations (network fetches, JSON decoding, process
spawning) are modeled with `Except`.  All definitions are translated from
the source file `src/auto_dl.py`.
-/

namespace AutoDL

/-! ## Filename sanitizer (`sanitize_filename`, auto_dl.py lines 146-159) -/

/-- The character class of the substitution `re.sub(r'[\\/:*?"<>|]', '_', filename)`. -/
def reservedClass : List Char := ['\\', '/', ':', '*', '?', '\"', '<', '>', '|']

/-- One character of the regex substitution: a reserved character becomes `'_'`. -/
def subChar (c : Char) : Char := if c ∈ reservedClass then '_' else c

/-- One character of `filename.replace('｜', '|')`: the full-width vertical bar
becomes the ASCII one. -/
def replaceFW (c : Char) : Char := if c = '｜' then '|' else c

/-- The characters removed at both ends by `filename.strip('. ')`. -/
def isStripChar (c : Char) : Bool := c == '.' || c == ' '

/-- `str.strip('. ')`: drop the strip characters from the front, then from the back. -/
def stripBoth (l : List Char) : List Char :=
  ((l.dropWhile isStripChar).reverse.dropWhile isStripChar).reverse

/-- The current wall-clock time, as consumed by `datetime.now().strftime(...)`.
The code only formats its six numeric fields. -/
structure DateTimeT where
  year : Nat
  month : Nat
  day : Nat
  hour : Nat
  minute : Nat
  second : Nat
deriving DecidableEq

/-- The decimal digit character of `d % 10`. -/
def digitChar (d : Nat) : Char := Char.ofNat (48 + d % 10)

/-- Decimal rendering of a natural number (accumulator form). -/
def natCharsAux (n : Nat) (acc : List Char) : List Char :=
  if h : n < 10 then digitChar n :: acc
  else natCharsAux (n / 10) (digitChar (n % 10) :: acc)
termination_by n
decreasing_by exact Nat.div_lt_self (by omega) (by omega)

/-- Decimal rendering of a natural number. -/
def natChars (n : Nat) : List Char := natCharsAux n []

/-- Zero-padded decimal rendering, as produced by the `strftime` width fields. -/
def padNat (w n : Nat) : List Char :=
  List.replicate (w - (natChars n).length) '0' ++ natChars n

/-- `f"video_{datetime.now().strftime('%Y%m%d_%H%M%S')}"`: the fallback name used
when a title sanitizes to the empty string. -/
def fallbackName (now : DateTimeT) : List Char :=
  "video_".data ++ padNat 4 now.year ++ padNat 2 now.month ++ padNat 2 now.day
    ++ ['_'] ++ padNat 2 now.hour ++ padNat 2 now.minute ++ padNat 2 now.second

/-- The pure part of `sanitize_filename`: full-width bar normalization, then the
reserved-character substitution, then `strip('. ')`. -/
def sanitizeCore (s : List Char) : List Char :=
  stripBoth ((s.map replaceFW).map subChar)

/-- `sanitize_filename` (auto_dl.py lines 146-159).  `now` is the wall clock read
by the fallback branch. -/
def sanitize_filename (now : DateTimeT) (s : List Char) : List Char :=
  if sanitizeCore s = [] then fallbackName now else sanitizeCore s

/-- The forbidden output characters of the specification: the reserved class of
the substitution together with the full-width vertical bar. -/
def forbidden : List Char := '｜' :: reservedClass

/-! ## JSON values and the recursive searches of `extract_urls`
(auto_dl.py lines 40-116) -/

/-- A parsed JSON value, as produced by `json.loads`.  Objects are association
lists in insertion order (Python dict keys are unique after parsing). -/
inductive Json where
  | null
  | bool (b : Bool)
  | num (n : Int)
  | str (s : List Char)
  | arr (items : List Json)
  | obj (fields : List (List Char × Json))

mutual

/-- Structural equality of JSON values (Python `==` on parsed JSON). -/
def Json.beq : Json → Json → Bool
  | .null, .null => true
  | .bool a, .bool b => a == b
  | .num a, .num b => a == b
  | .str a, .str b => a == b
  | .arr xs, .arr ys => Json.beqList xs ys
  | .obj fs, .obj gs => Json.beqFields fs gs
  | _, _ => false

/-- Structural equality of JSON arrays. -/
def Json.beqList : List Json → List Json → Bool
  | [], [] => true
  | x :: xs, y :: ys => Json.beq x y && Json.beqList xs ys
  | _, _ => false

/-- Structural equality of JSON objects. -/
def Json.beqFields : List (List Char × Json) → List (List Char × Json) → Bool
  | [], [] => true
  | (k, v) :: fs, (k', v') :: gs => k == k' && Json.beq v v' && Json.beqFields fs gs
  | _, _ => false

end

/-- Python truthiness of a JSON value, as used by `if result:` and `x or y`. -/
def Json.truthy : Json → Bool
  | .null => false
  | .bool b => b
  | .num n => n != 0
  | .str s => !s.isEmpty
  | .arr xs => !xs.isEmpty
  | .obj fs => !fs.isEmpty

/-- Dictionary key lookup (`'k' in obj` / `obj['k']`). -/
def lookupKey (k : List Char) : List (List Char × Json) → Option Json
  | [] => none
  | (k', v) :: rest => if k' = k then some v else lookupKey k rest

mutual

/-- `find_source` (auto_dl.py lines 61-74): if a dict has a key `"source"`,
return its value; otherwise recurse over dict values and list items, skipping
falsy recursive results (`if result: return result`). -/
def find_source : Json → Option Json
  | .obj fs =>
    match lookupKey "source".data fs with
    | some v => some v
    | none => find_source_vals fs
  | .arr xs => find_source_list xs
  | _ => none

def find_source_vals : List (List Char × Json) → Option Json
  | [] => none
  | (_, v) :: rest =>
    match find_source v with
    | some r => if r.truthy then some r else find_source_vals rest
    | none => find_source_vals rest

def find_source_list : List Json → Option Json
  | [] => none
  | v :: rest =>
    match find_source v with
    | some r => if r.truthy then some r else find_source_list rest
    | none => find_source_list rest

end

/-- `'src' in captions[i]` for a caption entry.  The code only ever meets
mapping entries; a non-mapping entry is modeled as not containing the key
(in Python a string or list entry would be a substring/membership test and an
entry of another type would raise, the raise being swallowed by the outer
handler of `extract_urls`). -/
def hasSrc : Json → Bool
  | .obj fs => (lookupKey "src".data fs).isSome
  | _ => false

/-- `captions[i]['src']` for a mapping entry. -/
def srcOf : Json → Option Json
  | .obj fs => lookupKey "src".data fs
  | _ => none

/-- Python `==` on the optional `src` values compared at auto_dl.py line 81. -/
def beqOptJson : Option Json → Option Json → Bool
  | some a, some b => Json.beq a b
  | none, none => true
  | _, _ => false

/-- The caption-list branch of `find_captions` (auto_dl.py lines 80-86),
including the redundant equal/distinct comparison of the first two entries. -/
def capsBranch : List Json → Option Json
  | c0 :: c1 :: _ =>
    if hasSrc c0 && hasSrc c1 then
      if beqOptJson (srcOf c0) (srcOf c1) then srcOf c0 else srcOf c0
    else if hasSrc c0 then srcOf c0
    else none
  | [c0] => if hasSrc c0 then srcOf c0 else none
  | [] => none

mutual

/-- `find_captions` (auto_dl.py lines 76-96): if a dict has a key `"captions"`
holding a list, try the caption-list branch; on no hit recurse over dict
values and list items, skipping falsy recursive results. -/
def find_captions : Json → Option Json
  | .obj fs =>
    match lookupKey "captions".data fs with
    | some (.arr caps) =>
      match capsBranch caps with
      | some v => some v
      | none => find_captions_vals fs
    | _ => find_captions_vals fs
  | .arr xs => find_captions_list xs
  | _ => none

def find_captions_vals : List (List Char × Json) → Option Json
  | [] => none
  | (_, v) :: rest =>
    match find_captions v with
    | some r => if r.truthy then some r else find_captions_vals rest
    | none => find_captions_vals rest

def find_captions_list : List Json → Option Json
  | [] => none
  | v :: rest =>
    match find_captions v with
    | some r => if r.truthy then some r else find_captions_list rest
    | none => find_captions_list rest

end

/-- Truthiness of an optional JSON value (`None` is falsy). -/
def truthyOpt : Option Json → Bool
  | some v => v.truthy
  | none => false

/-- Python `a or b` on optional JSON values. -/
def pyOr (a b : Option Json) : Option Json := if truthyOpt a then a else b

/-- The effects performed by one task: an HTTP request, a raw file write, or a
transcode invocation targeting an output path. -/
inductive Effect where
  | netGet (target : Json)
  | writeFile (path : List Char)
  | ffmpegRun (output : List Char)

/-- The per-script loop of `extract_urls` (auto_dl.py lines 57-109): a script
block whose JSON fails to decode is skipped (`except json.JSONDecodeError:
continue`); otherwise both accumulators are merged first-truthy-wins and the
scan stops early once both are truthy. -/
def scanScripts : Option Json × Option Json → List (Except Unit Json) →
    Option Json × Option Json
  | acc, [] => acc
  | acc, .error _ :: rest => scanScripts acc rest
  | (s, c), .ok data :: rest =>
    let s' := pyOr s (find_source data)
    let c' := pyOr c (find_captions data)
    if truthyOpt s' && truthyOpt c' then (s', c')
    else scanScripts (s', c') rest

/-- `extract_urls` (auto_dl.py lines 40-116).  `resp` is the outcome of
`requests.get(url)` followed by script-block collection: a network (or other)
error, or the list of JSON script blocks, each possibly failing to decode.
The returned trace records the page request, which is always attempted. -/
def extract_urls (pageUrl : List Char) (resp : Except Unit (List (Except Unit Json))) :
    (Option Json × Option Json) × List Effect :=
  (match resp with
    | .error _ => (none, none)
    | .ok scripts => scanScripts (none, none) scripts,
   [Effect.netGet (.str pageUrl)])

/-! ## Diagnostic-text parsing
(the regex searches of auto_dl.py lines 211 and 261)

The patterns are `Duration: (\d+):(\d+):(\d+).(\d+)` and
`time=(\d+):(\d+):(\d+).(\d+)`.  The unescaped dot matches any single
character.  The first two digit groups need no backtracking (a shorter greedy
match would leave a digit where `:` is required); the third group backtracks,
longest first, against the any-character-then-digits tail. -/

/-- Does the pattern list occur literally at the head of the text? -/
def beginsWith : List Char → List Char → Bool
  | [], _ => true
  | _, [] => false
  | a :: as, b :: bs => a == b && beginsWith as bs

/-- `int()` of a group of decimal digit characters. -/
def digitsVal (ds : List Char) : Nat :=
  ds.foldl (fun a c => a * 10 + (c.toNat - 48)) 0

/-- Match `(\d+):` at the head of the text, returning the group value and the
remaining text. -/
def matchGroupColon (cs : List Char) : Option (Nat × List Char) :=
  let ds := cs.takeWhile Char.isDigit
  if ds.isEmpty then none
  else match cs.drop ds.length with
    | ':' :: rest => some (digitsVal ds, rest)
    | _ => none

/-- After taking `k` of the greedy digits `ds` for the third group, does the
leftover text still match `.(\d+)` (any one character, then a digit)? -/
def secOk (ds rest : List Char) (k : Nat) : Bool :=
  match ds.drop k ++ rest with
  | _ :: d :: _ => d.isDigit
  | _ => false

/-- Match `(\d+).(\d+)` at the head of the text, returning the third group's
value; the third group is matched greedily with backtracking, longest first. -/
def matchSecFrac (cs : List Char) : Option Nat :=
  let ds := cs.takeWhile Char.isDigit
  let rest := cs.drop ds.length
  match (List.range ds.length).reverse.find? (fun i => secOk ds rest (i + 1)) with
  | some i => some (digitsVal (ds.take (i + 1)))
  | none => none

/-- Match the whole pattern `lit(\d+):(\d+):(\d+).(\d+)` at the head of the
text, returning the hour, minute and second groups (the fraction group is
validated but unused by the code). -/
def matchTimeAt (lit cs : List Char) : Option (Nat × Nat × Nat) :=
  if beginsWith lit cs then
    match matchGroupColon (cs.drop lit.length) with
    | none => none
    | some (h, r1) =>
      match matchGroupColon r1 with
      | none => none
      | some (m, r2) =>
        match matchSecFrac r2 with
        | none => none
        | some s => some (h, m, s)
  else none

/-- `re.search`: try the pattern at every position, leftmost first. -/
def searchTime (lit : List Char) : List Char → Option (Nat × Nat × Nat)
  | [] => matchTimeAt lit []
  | c :: rest =>
    match matchTimeAt lit (c :: rest) with
    | some v => some v
    | none => searchTime lit rest

/-- `hours * 3600 + minutes * 60 + seconds` (auto_dl.py lines 214 and 264). -/
def toSecs : Nat × Nat × Nat → Nat
  | (h, m, s) => h * 3600 + m * 60 + s

/-- The elapsed seconds parsed from one diagnostic line by the
`time=(\d+):(\d+):(\d+).(\d+)` search of auto_dl.py line 261. -/
def parseTimeLine (line : List Char) : Option Nat :=
  (searchTime "time=".data line).map toSecs

/-- `(current_time_in_seconds / total_duration) * 100` (auto_dl.py line 267). -/
def progressOf (cur total : Nat) : ℚ := (cur : ℚ) / (total : ℚ) * 100

/-- The sequence of percentages published to the progress bar by the stderr
loop of auto_dl.py lines 257-270: one value per line carrying a time-progress
pattern. -/
def publishProgress (total : Nat) (lines : List (List Char)) : List ℚ :=
  lines.filterMap (fun l => (parseTimeLine l).map (fun cur => progressOf cur total))

/-! ## Process runner (auto_dl.py lines 194-284) -/

/-- The observable behaviour of the spawned transcode process. -/
structure ProcRun where
  stderrLines : List (List Char)
  exitCode : Int
deriving DecidableEq

/-- The outcome of `run_ffmpeg_command`: the returned boolean, the published
percentages, and whether the transcode invocation was reached at all. -/
structure FfResult where
  success : Bool
  published : List ℚ
  invoked : Bool
deriving DecidableEq

/-- `get_total_duration` (auto_dl.py lines 194-221).  `probe` is the outcome of
spawning `ffmpeg -i url`: an exception (caught, yielding `None`) or the
process's stderr text, searched for `Duration: (\d+):(\d+):(\d+).(\d+)`. -/
def get_total_duration (probe : Except Unit (List Char)) : Option Nat :=
  match probe with
  | .error _ => none
  | .ok stderr => (searchTime "Duration: ".data stderr).map toSecs

/-- `run_ffmpeg_command` (auto_dl.py lines 223-284).  A missing duration fails
before the transcode is invoked.  A spawn/stream exception is caught and
reported as failure.  A zero probed duration together with any time-progress
line raises `ZeroDivisionError` at the first matching line — caught by the
same handler, so the call fails regardless of the exit code (and nothing has
been published at that point).  Otherwise the call succeeds exactly on exit
code zero, publishing one percentage per matching line. -/
def run_ffmpeg_command (probe : Except Unit (List Char)) (proc : Except Unit ProcRun) :
    FfResult :=
  match get_total_duration probe with
  | none => ⟨false, [], false⟩
  | some total =>
    match proc with
    | .error _ => ⟨false, [], true⟩
    | .ok r =>
      if total = 0 ∧ r.stderrLines.filterMap parseTimeLine ≠ [] then
        ⟨false, [], true⟩
      else
        ⟨r.exitCode == 0, publishProgress total r.stderrLines, true⟩

/-! ## Per-task processing and the orchestrator
(auto_dl.py lines 118-144, 286-355) -/

/-- One download task `{url, title}` loaded from the task file. -/
structure DTask where
  url : List Char
  title : List Char
deriving DecidableEq

/-- The ambient world one task runs against: the existing files, the
configured directories, the wall clock, and the outcomes of the external
interactions (page fetch, caption fetch, probe, transcode). -/
structure Env where
  fs : List (List Char)
  output_dir : List Char
  subtitle_dir : List Char
  now : DateTimeT
  scripts : Except Unit (List (Except Unit Json))
  capFetchOk : Bool
  probe : Except Unit (List Char)
  proc : Except Unit ProcRun

/-- `os.path.join(dir, name)` for a directory without a trailing separator and
a relative name, as built by the code. -/
def joinPath (dir name : List Char) : List Char := dir ++ '/' :: name

/-- `download_caption` (auto_dl.py lines 118-144): target name from the first
three title characters run through the sanitizer; an existing target skips the
fetch entirely; a failed fetch is caught and reported `false`. -/
def download_caption (env : Env) (url : Json) (title : List Char) : Bool × List Effect :=
  let safe := sanitize_filename env.now (title.take 3)
  let path := joinPath env.subtitle_dir (safe ++ ".vtt".data)
  if path ∈ env.fs then (false, [])
  else if env.capFetchOk then (true, [.netGet url, .writeFile path])
  else (false, [.netGet url])

/-- `download_stream` (auto_dl.py lines 286-322): resolve the page (always a
network request), conditionally fetch the caption, then check the output path
and either skip (`False`) or run the transcode. -/
def download_stream (env : Env) (task : DTask) : (DTask × Bool) × List Effect :=
  let safe_title := sanitize_filename env.now task.title
  let ext := extract_urls task.url env.scripts
  let resolved := ext.1
  -- url = source_url or original_url (Python truthiness)
  let _mediaUrl : Json := match resolved.1 with
    | some v => if v.truthy then v else .str task.url
    | none => .str task.url
  let capEff : List Effect := match resolved.2 with
    | some c => if c.truthy then (download_caption env c task.title).2 else []
    | none => []
  let output_path := joinPath env.output_dir (safe_title ++ "-acc.mp4".data)
  if output_path ∈ env.fs then ((task, false), ext.2 ++ capEff)
  else
    let r := run_ffmpeg_command env.probe env.proc
    ((task, r.success), ext.2 ++ capEff ++ (if r.invoked then [.ffmpegRun output_path] else []))

/-- The aggregation loop of `run` (auto_dl.py lines 329-355): an empty task
list returns early with no summary; otherwise every submitted task yields one
outcome, exceptions are caught at the per-task boundary (`except` around
`future.result()`) and counted as failures, and the final summary is
(succeeded, total).  `oracle` gives each task's outcome: a boolean, or the
exception it raised. -/
def run (oracle : DTask → Except (List Char) Bool) (tasks : List DTask) :
    Option (Nat × Nat) :=
  match tasks with
  | [] => none
  | _ :: _ =>
    some (tasks.foldl (fun acc t =>
      match oracle t with
      | .ok true => acc + 1
      | .ok false => acc
      | .error _ => acc) 0, tasks.length)

/-- Is a per-task outcome a success? -/
def isOkTrue : Except (List Char) Bool → Bool
  | .ok true => true
  | _ => false

/-! ## Concrete fixtures used by witnesses and counterexamples -/

/-- A fixed wall-clock reading. -/
def now0 : DateTimeT := ⟨2025, 1, 1, 0, 0, 0⟩

/-- A task whose output file already exists in `env0`. -/
def task0 : DTask := ⟨"http://x/page".data, "t".data⟩

/-- A world where `task0`'s output file `/v/t-acc.mp4` already exists and the
page fetch raises a request exception. -/
def env0 : Env :=
  { fs := ["/v/t-acc.mp4".data]
    output_dir := "/v".data
    subtitle_dir := "/s".data
    now := now0
    scripts := .error ()
    capFetchOk := false
    probe := .error ()
    proc := .error () }

/-- A probe whose diagnostic text reports a sub-second duration: the regex
matches and the computed total is `0` seconds. -/
def probe0 : Except Unit (List Char) :=
  .ok "  Duration: 00:00:00.09, start: 0.000000, bitrate: 5 kb/s".data

/-- A transcode that exits with code `0` after emitting one time-progress
line. -/
def proc0 : Except Unit ProcRun :=
  .ok ⟨["frame=    1 fps=0.0 q=-1.0 size=       0kB time=00:00:01.00 bitrate=   0.4kbits/s speed=   2x".data], 0⟩

/-- Five tasks, submitted in order. -/
def tasks5 : List DTask :=
  [⟨"u1".data, "1".data⟩, ⟨"u2".data, "2".data⟩, ⟨"u3".data, "3".data⟩,
   ⟨"u4".data, "4".data⟩, ⟨"u5".data, "5".data⟩]

/-- An outcome oracle where task 3 raises an unhandled internal error and the
other four tasks succeed. -/
def oracle5 (t : DTask) : Except (List Char) Bool :=
  if t.title = "3".data then .error "boom".data else .ok true

/-- The object `{captions: [{src: "a"}, {src: "b"}]}` of the specification's
captions-search example. -/
def capsAB : List (List Char × Json) :=
  [("captions".data,
    Json.arr [Json.obj [("src".data, Json.str "a".data)],
              Json.obj [("src".data, Json.str "b".data)]])]

/-!
# Theorems
-/

/-! ## List and sanitizer helper lemmas -/

theorem dropWhile_self (p : Char → Bool) (l : List Char) :
    (l.dropWhile p).dropWhile p = l.dropWhile p := by
  induction l with
  | nil => rfl
  | cons a l ih =>
    by_cases h : p a
    · simpa [List.dropWhile_cons, h] using ih
    · simp [List.dropWhile_cons, h]

theorem head_dropWhile_false (p : Char → Bool) :
    ∀ (l : List Char) (a : Char) (r : List Char), l.dropWhile p = a :: r → p a = false := by
  intro l
  induction l with
  | nil => intro a r h; simp [List.dropWhile] at h
  | cons c cs ih =>
    intro a r h
    rw [List.dropWhile_cons] at h
    by_cases hc : p c
    · rw [if_pos hc] at h
      exact ih a r h
    · rw [if_neg hc] at h
      cases h
      simpa using hc

theorem mem_dropWhile {p : Char → Bool} {l : List Char} {c : Char}
    (h : c ∈ l.dropWhile p) : c ∈ l :=
  (List.dropWhile_suffix p).subset h

theorem mem_stripBoth {l : List Char} {c : Char} (h : c ∈ stripBoth l) : c ∈ l := by
  rw [stripBoth, List.mem_reverse] at h
  have h2 := mem_dropWhile h
  rw [List.mem_reverse] at h2
  exact mem_dropWhile h2

theorem stripBoth_head_prop (l : List Char) :
    (stripBoth l).dropWhile isStripChar = stripBoth l := by
  cases hsb : stripBoth l with
  | nil => rfl
  | cons a r =>
    have hpre : stripBoth l <+:  l.dropWhile isStripChar := by
      rw [stripBoth]
      have h1 : (l.dropWhile isStripChar).reverse.dropWhile isStripChar <:+
          (l.dropWhile isStripChar).reverse := List.dropWhile_suffix _
      have h2 := List.reverse_prefix.mpr h1
      rwa [List.reverse_reverse] at h2
    rw [hsb] at hpre
    obtain ⟨t, ht⟩ := hpre
    have hfa : isStripChar a = false :=
      head_dropWhile_false isStripChar l a (r ++ t) ht.symm
    rw [List.dropWhile_cons, if_neg (by simp [hfa])]

theorem stripBoth_idem (l : List Char) : stripBoth (stripBoth l) = stripBoth l := by
  conv_lhs => rw [stripBoth]
  rw [stripBoth_head_prop]
  have hrev : (stripBoth l).reverse = (l.dropWhile isStripChar).reverse.dropWhile isStripChar := by
    rw [stripBoth, List.reverse_reverse]
  rw [hrev, dropWhile_self, ← hrev, List.reverse_reverse]

theorem map_eq_self_of_forall {f : Char → Char} {l : List Char}
    (h : ∀ c ∈ l, f c = c) : l.map f = l := by
  induction l with
  | nil => rfl
  | cons a l ih =>
    rw [List.map_cons, h a (by simp), ih (fun c hc => h c (by simp [hc]))]

theorem subChar_not_reserved (b : Char) : subChar b ∉ reservedClass := by
  rw [subChar]
  by_cases h : b ∈ reservedClass
  · rw [if_pos h]; decide
  · rw [if_neg h]; exact h

theorem subChar_ne_fw (b : Char) (hb : b ≠ '｜') : subChar b ≠ '｜' := by
  rw [subChar]
  by_cases h : b ∈ reservedClass
  · rw [if_pos h]; decide
  · rw [if_neg h]; exact hb

theorem replaceFW_ne_fw (a : Char) : replaceFW a ≠ '｜' := by
  rw [replaceFW]
  by_cases h : a = '｜'
  · rw [if_pos h]; decide
  · rw [if_neg h]; exact h

theorem sanitizeCore_not_forbidden {s : List Char} {c : Char} (h : c ∈ sanitizeCore s) :
    c ∉ forbidden := by
  have h1 : c ∈ (s.map replaceFW).map subChar := mem_stripBoth h
  rw [List.mem_map] at h1
  obtain ⟨b, hb, rfl⟩ := h1
  rw [List.mem_map] at hb
  obtain ⟨a, _, rfl⟩ := hb
  rw [forbidden, List.mem_cons]
  push_neg
  exact ⟨subChar_ne_fw _ (replaceFW_ne_fw a), subChar_not_reserved _⟩

theorem mem_natCharsAux : ∀ (n : Nat) (acc : List Char) (c : Char),
    c ∈ natCharsAux n acc → (∃ d, d < 10 ∧ c = digitChar d) ∨ c ∈ acc := by
  intro n
  induction n using Nat.strong_induction_on with
  | _ n ih =>
    intro acc c hc
    rw [natCharsAux] at hc
    split at hc
    · rename_i h
      rcases List.mem_cons.mp hc with h1 | h1
      · exact Or.inl ⟨n, h, h1⟩
      · exact Or.inr h1
    · rename_i h
      rcases ih (n / 10) (Nat.div_lt_self (by omega) (by omega)) _ c hc with h1 | h1
      · exact Or.inl h1
      · rcases List.mem_cons.mp h1 with h2 | h2
        · exact Or.inl ⟨n % 10, Nat.mod_lt _ (by omega), h2⟩
        · exact Or.inr h2

theorem digitChar_not_forbidden (d : Nat) : digitChar d ∉ forbidden := by
  have hball : ∀ e, e < 10 → Char.ofNat (48 + e) ∉ forbidden := by decide
  rw [digitChar]
  exact hball (d % 10) (Nat.mod_lt _ (by omega))

theorem mem_padNat {w n : Nat} {c : Char} (h : c ∈ padNat w n) : c ∉ forbidden := by
  rw [padNat, List.mem_append] at h
  rcases h with h | h
  · rw [List.mem_replicate] at h
    rw [h.2]; decide
  · rcases mem_natCharsAux n [] c h with ⟨d, _, rfl⟩ | h2
    · exact digitChar_not_forbidden d
    · simp at h2

theorem fallbackName_not_forbidden {now : DateTimeT} {c : Char}
    (h : c ∈ fallbackName now) : c ∉ forbidden := by
  have hv : ∀ x ∈ "video_".data, x ∉ forbidden := by decide
  have hu : ∀ x ∈ ['_'], x ∉ forbidden := by decide
  rw [fallbackName] at h
  simp only [List.mem_append] at h
  rcases h with ((((((h | h) | h) | h) | h) | h) | h) | h
  · exact hv _ h
  · exact mem_padNat h
  · exact mem_padNat h
  · exact mem_padNat h
  · exact hu _ h
  · exact mem_padNat h
  · exact mem_padNat h
  · exact mem_padNat h

theorem fallbackName_ne_nil (now : DateTimeT) : fallbackName now ≠ [] := by
  rw [fallbackName]
  intro h
  have := congrArg List.length h
  simp [List.length_append] at this

theorem sanitizeCore_of_clean (r : List Char) (hr : ∀ c ∈ r, c ∉ forbidden) :
    sanitizeCore r = stripBoth r := by
  have hclean : ∀ c ∈ r, c ∉ reservedClass ∧ c ≠ '｜' := by
    intro c hc
    have := hr c hc
    rw [forbidden, List.mem_cons] at this
    push_neg at this
    exact ⟨this.2, this.1⟩
  rw [sanitizeCore,
    map_eq_self_of_forall (f := replaceFW)
      (fun c hc => by rw [replaceFW, if_neg (hclean c hc).2]),
    map_eq_self_of_forall (f := subChar)
      (fun c hc => by rw [subChar, if_neg (hclean c hc).1])]

/-! ## Claims C7 and C10: the filename sanitizer -/

/-- C7: for every input title string, the sanitizer's output contains none of
the reserved characters (the path separators, wildcard, redirection and quote
characters of the substitution class, plus the full-width vertical bar) and is
never the empty string. -/
theorem sanitize_filename_safe :
    ∀ (now : DateTimeT) (s : List Char),
      sanitize_filename now s ≠ [] ∧ ∀ c ∈ sanitize_filename now s, c ∉ forbidden := by
  intro now s
  rw [sanitize_filename]
  by_cases h : sanitizeCore s = []
  · rw [if_pos h]
    exact ⟨fallbackName_ne_nil now, fun c hc => fallbackName_not_forbidden hc⟩
  · rw [if_neg h]
    exact ⟨h, fun c hc => sanitizeCore_not_forbidden hc⟩

/-- Witness for C7 at the concrete title `"a"`. -/
theorem sanitize_filename_safe_w : 'a' ∉ forbidden :=
  (sanitize_filename_safe now0 "a".data).2 'a'
    (by
      have h : sanitize_filename now0 "a".data = ['a'] := rfl
      rw [h]
      exact List.mem_singleton.mpr rfl)

/-- C10: the sanitizer is idempotent on its non-fallback branch: if a title
sanitizes to a non-empty string without taking the timestamp fallback,
sanitizing the result again returns it unchanged. -/
theorem sanitize_filename_idem :
    ∀ (now : DateTimeT) (s : List Char), sanitizeCore s ≠ [] →
      sanitize_filename now (sanitize_filename now s) = sanitize_filename now s := by
  intro now s h
  have hout : sanitize_filename now s = sanitizeCore s := by
    rw [sanitize_filename, if_neg h]
  rw [hout]
  have hcore : sanitizeCore (sanitizeCore s) = sanitizeCore s := by
    rw [sanitizeCore_of_clean _ (fun c hc => sanitizeCore_not_forbidden hc)]
    rw [sanitizeCore]
    exact stripBoth_idem _
  rw [sanitize_filename, hcore, if_neg h]

/-- Witness for C10 at the concrete title `"a/b"`. -/
theorem sanitize_filename_idem_w :
    sanitize_filename now0 (sanitize_filename now0 "a/b".data) =
      sanitize_filename now0 "a/b".data :=
  sanitize_filename_idem now0 "a/b".data (by decide)

/-! ## Claim C5: the page resolver fails soft -/

/-- C5: for every page URL the resolver never raises to its caller (it is a
total function here): a network or parse error of the whole fetch yields
`(none, none)`, and a JSON decode failure of one structured-data block leaves
the scan of the remaining blocks unchanged. -/
theorem extract_urls_fail_soft :
    ∀ (u : List Char) (e : Unit),
      (extract_urls u (.error e)).1 = (none, none) ∧
      ∀ (acc : Option Json × Option Json) (err : Unit) (rest : List (Except Unit Json)),
        scanScripts acc (.error err :: rest) = scanScripts acc rest := by
  intro u e
  constructor
  · rfl
  · intro acc err rest
    cases acc
    rfl

/-! ## Claim C6: the captions search takes the first entry -/

/-- C6: on a mapping whose `captions` key holds a non-empty sequence of
mappings each carrying a `src` field, the captions search returns the first
entry's `src`, identically whether later entries' values are equal to it or
distinct from it. -/
theorem find_captions_first_src :
    ∀ (fs f0 : List (List Char × Json)) (rest : List Json) (a : Json),
      lookupKey "captions".data fs = some (.arr (Json.obj f0 :: rest)) →
      lookupKey "src".data f0 = some a →
      (∀ j ∈ rest, ∃ g, j = Json.obj g ∧ (lookupKey "src".data g).isSome) →
      find_captions (.obj fs) = some a := by
  intro fs f0 rest a hcaps hsrc _hrest
  have h0 : hasSrc (Json.obj f0) = true := by
    simp only [hasSrc]
    rw [hsrc]
    rfl
  have hs0 : srcOf (Json.obj f0) = some a := by
    simp only [srcOf]
    exact hsrc
  have hbranch : capsBranch (Json.obj f0 :: rest) = some a := by
    cases rest with
    | nil =>
      simp only [capsBranch, h0, if_true]
      exact hs0
    | cons c1 rest' =>
      cases hc1 : hasSrc c1 with
      | true =>
        simp only [capsBranch, h0, hc1, Bool.and_self, if_true]
        cases hbeq : beqOptJson (srcOf (Json.obj f0)) (srcOf c1) <;> simp [hbeq, hs0]
      | false =>
        simp only [capsBranch, h0, hc1, Bool.and_false, Bool.false_eq_true, if_false, if_true]
        exact hs0
  simp only [find_captions, hcaps, hbranch]

/-- Witness for C6 at `captions: [{src: "a"}, {src: "b"}]` (distinct values). -/
theorem find_captions_first_src_w :
    find_captions (.obj capsAB) = some (.str "a".data) :=
  find_captions_first_src capsAB [("src".data, .str "a".data)]
    [Json.obj [("src".data, .str "b".data)]] (.str "a".data) rfl rfl
    (by
      intro j hj
      rw [List.mem_singleton] at hj
      exact ⟨[("src".data, .str "b".data)], hj, rfl⟩)

/-! ## Claim C3: the orchestrator aggregates one outcome per task -/

theorem run_foldl_count (oracle : DTask → Except (List Char) Bool) :
    ∀ (l : List DTask) (acc : Nat),
      l.foldl (fun acc t =>
        match oracle t with
        | .ok true => acc + 1
        | .ok false => acc
        | .error _ => acc) acc = acc + (l.map oracle).countP isOkTrue := by
  intro l
  induction l with
  | nil => intro acc; simp
  | cons t ts ih =>
    intro acc
    rw [List.foldl_cons, List.map_cons, List.countP_cons, ih]
    cases ho : oracle t with
    | ok b =>
      cases b with
      | true => simp [isOkTrue]; ring
      | false => simp [isOkTrue]
    | error e => simp [isOkTrue]

/-- C3: for a non-empty task list, the orchestrator produces exactly one
outcome per submitted task (an exception raised inside a task is caught at
the per-task boundary and counted as a failure, leaving the other tasks'
outcomes intact), and reports succeeded = number of true outcomes and
total = number of tasks. -/
theorem run_counts :
    ∀ (oracle : DTask → Except (List Char) Bool) (tasks : List DTask),
      tasks ≠ [] →
      (tasks.map oracle).length = tasks.length ∧
      run oracle tasks = some ((tasks.map oracle).countP isOkTrue, tasks.length) := by
  intro oracle tasks h
  refine ⟨by simp, ?_⟩
  cases tasks with
  | nil => exact absurd rfl h
  | cons t ts =>
    simp only [run]
    rw [run_foldl_count]
    simp

/-- Witness for C3: five tasks, the third raising an internal error, yield
four successes out of five. -/
theorem run_counts_w : run oracle5 tasks5 = some (4, 5) := by
  rw [(run_counts oracle5 tasks5 (by decide)).2]
  decide

/-! ## Claims C1 and C9: the published progress percentages -/

theorem publishProgress_eq (total : Nat) (lines : List (List Char)) :
    publishProgress total lines
      = (lines.filterMap parseTimeLine).map (fun cur => progressOf cur total) := by
  rw [publishProgress, List.map_filterMap]

/-- C1 counterexample: at total duration 3600 s the line `time=02:00:00.00`
publishes the percentage 200, which is not in [0, 100] — the code applies no
clamping. -/
theorem publishProgress_unclamped_cex :
    (0 : Nat) < 3600 ∧
    publishProgress 3600 ["time=02:00:00.00".data] = [progressOf 7200 3600] ∧
    progressOf 7200 3600 = 200 ∧ ¬((200 : ℚ) ≤ 100) := by
  refine ⟨by norm_num, rfl, ?_, by norm_num⟩
  rw [progressOf]
  norm_num

/-- C1 amended: each published percentage is exactly elapsed/total·100; it is
always ≥ 0, but it is ≤ 100 only when the elapsed time does not exceed the
total duration — the code publishes the raw quotient without clamping. -/
theorem publishProgress_amended :
    ∀ (total : Nat) (lines : List (List Char)), 0 < total →
      publishProgress total lines
          = (lines.filterMap parseTimeLine).map (fun cur => progressOf cur total) ∧
      (∀ p ∈ publishProgress total lines, 0 ≤ p) ∧
      (∀ cur : Nat, progressOf cur total ≤ 100 ↔ cur ≤ total) := by
  intro total lines htotal
  have ht : (0 : ℚ) < total := by exact_mod_cast htotal
  refine ⟨publishProgress_eq total lines, ?_, ?_⟩
  · intro p hp
    rw [publishProgress_eq, List.mem_map] at hp
    obtain ⟨cur, _, rfl⟩ := hp
    rw [progressOf]
    positivity
  · intro cur
    rw [progressOf, div_mul_eq_mul_div, div_le_iff₀ ht]
    constructor
    · intro h
      have h2 : (cur : ℚ) ≤ total := by nlinarith
      exact_mod_cast h2
    · intro h
      have h2 : (cur : ℚ) ≤ total := by exact_mod_cast h
      nlinarith

/-- Witness for C1 (amended) at total 3600 and elapsed 1800. -/
theorem publishProgress_amended_w : progressOf 1800 3600 ≤ 100 :=
  ((publishProgress_amended 3600 [] (by norm_num)).2.2 1800).mpr (by norm_num)

/-- C9 counterexample: lines with decreasing elapsed times publish a
decreasing percentage sequence — the code does not enforce monotonicity. -/
theorem publish_monotone_cex :
    (0 : Nat) < 3600 ∧
    ¬ List.Chain' (· ≤ ·)
        (publishProgress 3600 ["time=00:00:10.00".data, "time=00:00:05.00".data]) := by
  refine ⟨by norm_num, ?_⟩
  have h : publishProgress 3600 ["time=00:00:10.00".data, "time=00:00:05.00".data]
      = [progressOf 10 3600, progressOf 5 3600] := rfl
  rw [h, List.chain'_cons]
  intro hc
  have h1 := hc.1
  rw [progressOf, progressOf] at h1
  norm_num at h1

/-- C9 amended: within one runner invocation the published percentage
sequence is non-decreasing whenever the elapsed times parsed from the
diagnostic lines are non-decreasing (as they are for a real transcode); the
code itself applies the monotone map elapsed ↦ elapsed/total·100 and enforces
nothing. -/
theorem publishProgress_mono :
    ∀ (total : Nat) (lines : List (List Char)), 0 < total →
      List.Chain' (· ≤ ·) (lines.filterMap parseTimeLine) →
      List.Chain' (· ≤ ·) (publishProgress total lines) := by
  intro total lines htotal hchain
  rw [publishProgress_eq]
  refine List.chain'_map_of_chain' _ ?_ hchain
  intro a b hab
  rw [progressOf, progressOf]
  have ht : (0 : ℚ) < total := by exact_mod_cast htotal
  have hab2 : (a : ℚ) ≤ b := by exact_mod_cast hab
  have h3 : (a : ℚ) / total ≤ (b : ℚ) / total := by gcongr
  exact mul_le_mul_of_nonneg_right h3 (by norm_num)

/-- Witness for C9 (amended) on two increasing time lines. -/
theorem publishProgress_mono_w :
    List.Chain' (· ≤ ·)
      (publishProgress 3600 ["time=00:00:05.00".data, "time=00:00:10.00".data]) := by
  apply publishProgress_mono 3600 _ (by norm_num)
  have h : ["time=00:00:05.00".data, "time=00:00:10.00".data].filterMap parseTimeLine
      = [5, 10] := rfl
  rw [h]
  exact List.chain'_pair.mpr (by norm_num)

/-! ## Claim C8: time-string arithmetic -/

/-- C8: the pattern `HH:MM:SS.ff` converts to seconds as
`hours·3600 + minutes·60 + seconds`; a diagnostic text containing
`Duration: 01:02:03.04` probes to 3723 s, `time=00:31:01.50` parses to 1861 s,
and the resulting percentage against 3723 s is within 0.1 of 50.0. -/
theorem time_parsing_spec :
    (∀ h m s : Nat, toSecs (h, m, s) = h * 3600 + m * 60 + s) ∧
    get_total_duration (.ok "Input 0, Duration: 01:02:03.04, start: 0.000000".data)
        = some 3723 ∧
    parseTimeLine "frame= 100 fps=25 q=29.0 size= 512kB time=00:31:01.50 bitrate=2252.6kbits/s".data
        = some 1861 ∧
    |progressOf 1861 3723 - 50| < 1 / 10 := by
  refine ⟨fun h m s => rfl, rfl, rfl, ?_⟩
  rw [progressOf, abs_sub_lt_iff]
  norm_num

/-! ## Claim C4: process-runner error handling -/

/-- C4 counterexample: a probe reporting `Duration: 00:00:00.09` yields a
total of 0 s; the transcode then runs, exits with code 0, but the division by
zero at the first progress line is caught by the exception handler and the
call reports failure — success is not equivalent to a zero exit code. -/
theorem run_ffmpeg_zero_duration_cex :
    get_total_duration probe0 = some 0 ∧
    (∃ r, proc0 = Except.ok r ∧ r.exitCode = 0) ∧
    (run_ffmpeg_command probe0 proc0).invoked = true ∧
    (run_ffmpeg_command probe0 proc0).success = false :=
  ⟨rfl, ⟨_, rfl, rfl⟩, rfl, rfl⟩

/-- C4 amended: a probe without a duration pattern fails without invoking the
transcode; a spawn/stream exception is caught and reported as failure; when
the transcode runs, success is equivalent to a zero exit code except in the
zero-duration-with-progress-line case, where the division error is caught and
the call fails. -/
theorem run_ffmpeg_amended :
    ∀ (probe : Except Unit (List Char)) (proc : Except Unit ProcRun),
      (get_total_duration probe = none →
        run_ffmpeg_command probe proc = ⟨false, [], false⟩) ∧
      (∀ e, proc = .error e → (run_ffmpeg_command probe proc).success = false) ∧
      (∀ total r, get_total_duration probe = some total → proc = .ok r →
        ¬(total = 0 ∧ r.stderrLines.filterMap parseTimeLine ≠ []) →
        (run_ffmpeg_command probe proc).success = (r.exitCode == 0)) ∧
      (∀ total r, get_total_duration probe = some total → proc = .ok r →
        total = 0 → r.stderrLines.filterMap parseTimeLine ≠ [] →
        (run_ffmpeg_command probe proc).success = false) := by
  intro probe proc
  refine ⟨?_, ?_, ?_, ?_⟩
  · intro h
    simp [run_ffmpeg_command, h]
  · intro e he
    cases hd : get_total_duration probe <;> simp [run_ffmpeg_command, hd, he]
  · intro total r hd hr hnot
    simp only [run_ffmpeg_command, hd, hr]
    rw [if_neg hnot]
  · intro total r hd hr h0 hne
    simp only [run_ffmpeg_command, hd, hr]
    rw [if_pos ⟨h0, hne⟩]

/-- Witness for C4 (amended): a failed spawn is reported as failure. -/
theorem run_ffmpeg_amended_w :
    (run_ffmpeg_command (.error ()) (.error ())).success = false :=
  (run_ffmpeg_amended (.error ()) (.error ())).2.1 () rfl

/-! ## Claim C2: processing a task whose output already exists -/

theorem mem_capEffects {env : Env} {c : Json} {title : List Char} {e : Effect}
    (h : e ∈ (download_caption env c title).2) :
    e = .netGet c ∨
    e = .writeFile (joinPath env.subtitle_dir
      (sanitize_filename env.now (title.take 3) ++ ".vtt".data)) := by
  simp only [download_caption] at h
  split at h
  · simp at h
  · split at h
    · simp only [List.mem_cons, List.mem_singleton, List.not_mem_nil, or_false] at h
      rcases h with h | h
      · exact Or.inl h
      · exact Or.inr h
    · rw [List.mem_singleton] at h
      exact Or.inl h

theorem vtt_ne_mp4 (d1 d2 a b : List Char) :
    joinPath d1 (a ++ ".vtt".data) ≠ joinPath d2 (b ++ "-acc.mp4".data) := by
  intro h
  have h4 : joinPath d1 (a ++ ".vtt".data) = (d1 ++ '/' :: a) ++ ".vtt".data := by
    rw [joinPath, ← List.cons_append, ← List.append_assoc]
  have h5 : joinPath d2 (b ++ "-acc.mp4".data) = (d2 ++ '/' :: b) ++ "-acc.mp4".data := by
    rw [joinPath, ← List.cons_append, ← List.append_assoc]
  rw [h4, h5] at h
  have h6 := congrArg List.getLast? h
  rw [List.getLast?_append_of_ne_nil _ (by decide),
    List.getLast?_append_of_ne_nil _ (by decide)] at h6
  exact absurd h6 (by decide)

/-- C2 counterexample: on a task whose output file already exists, the run
returns `success = false` and writes nothing, but the page-resolution network
request has already been performed — "performs no network calls" is false. -/
theorem download_stream_network_cex :
    joinPath env0.output_dir (sanitize_filename env0.now task0.title ++ "-acc.mp4".data)
        ∈ env0.fs ∧
    (download_stream env0 task0).1.2 = false ∧
    Effect.netGet (.str task0.url) ∈ (download_stream env0 task0).2 := by
  refine ⟨?_, rfl, ?_⟩
  · have h : joinPath env0.output_dir (sanitize_filename env0.now task0.title ++ "-acc.mp4".data)
        = "/v/t-acc.mp4".data := rfl
    rw [h]
    exact List.mem_singleton.mpr rfl
  · have h : (download_stream env0 task0).2 = [Effect.netGet (.str task0.url)] := rfl
    rw [h]
    exact List.mem_singleton.mpr rfl

/-- C2 amended: for every task whose output file already exists at the target
path, processing returns `success = false`, never invokes the transcode, and
never writes the output file — but the page resolution (and possibly the
caption fetch) still performs network requests before the existence check. -/
theorem download_stream_skip :
    ∀ (env : Env) (task : DTask),
      joinPath env.output_dir (sanitize_filename env.now task.title ++ "-acc.mp4".data)
          ∈ env.fs →
      (download_stream env task).1.2 = false ∧
      (∀ q, Effect.ffmpegRun q ∉ (download_stream env task).2) ∧
      Effect.writeFile
          (joinPath env.output_dir (sanitize_filename env.now task.title ++ "-acc.mp4".data))
          ∉ (download_stream env task).2 := by
  intro env task hex
  have htr : ∀ e, e ∈ (download_stream env task).2 →
      (∃ u, e = Effect.netGet u) ∨
      e = Effect.writeFile (joinPath env.subtitle_dir
        (sanitize_filename env.now (task.title.take 3) ++ ".vtt".data)) := by
    intro e he
    simp only [download_stream] at he
    rw [if_pos hex] at he
    rw [List.mem_append] at he
    rcases he with he | he
    · simp only [extract_urls] at he
      rw [List.mem_singleton] at he
      exact Or.inl ⟨_, he⟩
    · rcases hcap : (extract_urls task.url env.scripts).1.2 with _ | c
      · rw [hcap] at he
        simp at he
      · rw [hcap] at he
        by_cases htru : c.truthy
        · simp only [htru, if_true] at he
          rcases mem_capEffects he with h1 | h1
          · exact Or.inl ⟨_, h1⟩
          · exact Or.inr h1
        · simp [htru] at he
  refine ⟨?_, ?_, ?_⟩
  · simp only [download_stream]
    rw [if_pos hex]
  · intro q hq
    rcases htr _ hq with ⟨u, h1⟩ | h1 <;> simp at h1
  · intro hq
    rcases htr _ hq with ⟨u, h1⟩ | h1
    · simp at h1
    · have h3 : Effect.writeFile
          (joinPath env.output_dir (sanitize_filename env.now task.title ++ "-acc.mp4".data)) =
          Effect.writeFile (joinPath env.subtitle_dir
            (sanitize_filename env.now (task.title.take 3) ++ ".vtt".data)) := h1
      injection h3 with h4
      exact vtt_ne_mp4 _ _ _ _ h4.symm

/-- Witness for C2 (amended) at the concrete world `env0`, `task0`. -/
theorem download_stream_skip_w : (download_stream env0 task0).1.2 = false :=
  (download_stream_skip env0 task0 (by
    have h : joinPath env0.output_dir (sanitize_filename env0.now task0.title ++ "-acc.mp4".data)
        = "/v/t-acc.mp4".data := rfl
    rw [h]
    exact List.mem_singleton.mpr rfl)).1

end AutoDL
